import Mathlib

/-!
Shallow embedding of gopm's `cmd/get.go` (package resolver/downloader walk).

The file under verification is `src/cmd/get.go`.  Its external collaborators
(the `doc`, `setting` and `log` modules, the VCS tooling and the filesystem)
are not part of the source tree; following the specification they are modelled
as an explicit environment of oracles (`Env`) plus an explicit run state
(`RState`) threaded through the walk.  Go's package-level globals
(`downloadCache`, `skipCache`, `downloadCount`, `failConut`, the in-memory
`setting.LocalNodes` record, the filesystem and the log output) become fields
of `RState`.  Two ghost fields (`dpLog`, `fetchLog`) record, without
influencing control flow, which nodes `downloadPackage` resp. the external
fetch strategy were invoked on; they make the "at most once" and
"record consulted" properties stateable.
-/

namespace Gopm

/-- Version-spec kinds, `doc.BRANCH` / `doc.TAG` / `doc.COMMIT`. -/
inductive VerType where
  | branch
  | tag
  | commit
deriving DecidableEq

/-- Modelled from the spec: one `doc.Node` — importPath, derived rootPath,
version spec (kind `tp` = Go `Type`, `value` = Go `Value`), resolved
`revision`, recursion flags and the two derived install locations. -/
structure Node where
  importPath : String
  rootPath : String
  tp : VerType
  value : String
  revision : String
  isGetDeps : Bool
  isGetDepsOnly : Bool
  installPath : String
  installGopath : String
deriving DecidableEq

/-- Modelled from the spec: `label()` / `VerString()` — human string
"path@kind:value" used in log lines. -/
def VerType.str : VerType → String
  | .branch => "branch"
  | .tag => "tag"
  | .commit => "commit"

/-- Modelled from the spec: `n.VerString()`. -/
def Node.VerString (n : Node) : String :=
  n.importPath ++ "@" ++ n.tp.str ++ ":" ++ n.value

/-- Modelled from the spec: `isFixed()` — kind ∈ {Tag, Commit}, or Branch
with non-empty value. -/
def Node.IsFixed (n : Node) : Bool :=
  match n.tp with
  | .tag => true
  | .commit => true
  | .branch => !(n.value == "")

/-- Modelled from the spec: `isUnpinned()` (Go `IsEmptyVal`) — Branch kind
with empty value. -/
def Node.IsEmptyVal (n : Node) : Bool :=
  n.tp == .branch && n.value == ""

/-- `n.IsExist()` — install location present on disk; the disk is the `fs`
set of present paths. -/
def Node.IsExist (n : Node) (fs : List String) : Bool :=
  fs.contains n.installPath

/-- Result of the external fetch strategy `n.Download(ctx)`: on success the
resolved revision and the raw import list, otherwise the error cause. -/
inductive DownloadResult where
  | ok (revision : String) (imports : List String)
  | err (msg : String)

/-- The CLI flags consumed by `get` (`ctx.Bool(...)` / `ctx.GlobalBool`). -/
structure Ctx where
  update : Bool
  gopath : Bool
  localF : Bool
  download : Bool
  remote : Bool
  strict : Bool
deriving DecidableEq

/-- The external collaborators, as oracles (spec section 6): remote-path
validity, the root-path deriver and install-location derivation, VCS
detection/update, import enumeration, the fetch strategy, and manifest
(gopmfile) lookup. -/
structure Env where
  isValidRemotePath : String → Bool
  getRootPath : String → String
  installPathOf : String → String → String
  installGopathOf : String → String
  getVcsName : String → String
  getImports : String → String → String → List String
  download : Node → DownloadResult
  updateByVcs : Node → String → Option String
  isFile : String → Bool
  gopmfileDeps : String → String → String

/-- Modelled from the spec: `hasVcsMetadata()` (Go `HasVcs`) — VCS marker
present at the workspace location. -/
def Node.HasVcs (env : Env) (n : Node) : Bool :=
  !(env.getVcsName n.installGopath == "")

/-- Modelled from the spec: `doc.NewNode(importPath, tp, value, isGetDeps)` —
derives rootPath via the root-path deriver and both install locations from
rootPath + version. -/
def NewNode (env : Env) (importPath : String) (tp : VerType) (value : String)
    (isGetDeps : Bool) : Node :=
  let root := env.getRootPath importPath
  { importPath := importPath
    rootPath := root
    tp := tp
    value := value
    revision := ""
    isGetDeps := isGetDeps
    isGetDepsOnly := false
    installPath := env.installPathOf root value
    installGopath := env.installGopathOf root }

/-- Split a character list at the first colon (helper for `validPkgInfo`). -/
def breakColon : List Char → Option (List Char × List Char)
  | [] => none
  | c :: cs =>
    if c = ':' then some ([], cs)
    else (breakColon cs).map (fun p => (c :: p.1, p.2))

/-- Modelled from the spec: `validPkgInfo` — parse a "kind:value" token,
kind ∈ {branch, tag, commit}. -/
def validPkgInfo (v : String) : VerType × String :=
  match breakColon v.data with
  | some (k, val) =>
    let ks : String := ⟨k⟩
    let vs : String := ⟨val⟩
    if ks = "tag" then (VerType.tag, vs)
    else if ks = "commit" then (VerType.commit, vs)
    else (VerType.branch, vs)
  | none => (VerType.branch, v)

/-- Structural character-list test: first list leads the second
(Go `strings.HasPrefix`, kernel-evaluable). -/
def charsLead : List Char → List Char → Bool
  | [], _ => true
  | _ :: _, [] => false
  | a :: as, b :: bs => a == b && charsLead as bs

/-- String version of `charsLead`: `pre` starts `s`. -/
def strStartsWith (s pre : String) : Bool :=
  charsLead pre.data s.data

/-- Modelled from the spec: `isSubpackage(rootPath, target)` — rootPath
equals or is a subpackage of the resolution target. -/
def isSubpackage (rootPath target : String) : Bool :=
  rootPath == target || strStartsWith rootPath (target ++ "/")

/-- The run state: Go globals of `cmd/get.go`, the in-memory and persisted
local-record maps, the filesystem, the log, and the two ghost logs. -/
structure RState where
  downloadCache : List String
  skipCache : List String
  downloadCount : Nat
  failConut : Nat
  localNodes : List (String × String)
  savedNodes : List (String × String)
  fs : List String
  logs : List String
  dpLog : List Node
  fetchLog : List Node
deriving DecidableEq

/-- The empty run state (fresh process, empty record, empty disk). -/
def initState : RState :=
  { downloadCache := []
    skipCache := []
    downloadCount := 0
    failConut := 0
    localNodes := []
    savedNodes := []
    fs := []
    logs := []
    dpLog := []
    fetchLog := [] }

/-- `setting.LocalNodes.MustValue(key, "value")` — lookup with empty-string
default. -/
def lnMustValue (ln : List (String × String)) (k : String) : String :=
  match ln.find? (fun p => p.1 == k) with
  | some p => p.2
  | none => ""

/-- `setting.LocalNodes.SetValue(key, "value", v)` — insert or overwrite. -/
def lnSetValue (ln : List (String × String)) (k v : String) :
    List (String × String) :=
  (k, v) :: ln.filter (fun p => !(p.1 == k))

/-- Set-style insertion for the `map[string]bool` caches and the disk. -/
def insertStr (l : List String) (x : String) : List String :=
  if l.contains x then l else l ++ [x]

/-- `get.go` lines 94-100: failure tail of `downloadPackage` — log the
node's import path and the cause, bump `failConut`, `os.RemoveAll` the
install directory. -/
def downloadFail (n : Node) (emsg : String) (s : RState) : RState :=
  { s with
    logs := s.logs ++ ["Fail to download pakage: " ++ n.importPath, "\t" ++ emsg]
    failConut := s.failConut + 1
    fs := s.fs.filter (fun p => !(p == n.installPath)) }

/-- `get.go` lines 68-106: `downloadPackage(ctx, n)`.  Marks the rootPath in
`downloadCache` first, then chooses VCS update / deps-only enumeration /
fresh fetch (pinning the revision from the local record when the install
already exists), and on error cleans up and returns null.  Returns
(resultNode-or-null, rawImports, state). -/
def downloadPackage (env : Env) (ctx : Ctx) (n : Node) (s : RState) :
    Option Node × List String × RState :=
  let s0 : RState :=
    { s with
      logs := s.logs ++ ["Downloading package: " ++ n.VerString]
      dpLog := s.dpLog ++ [n]
      downloadCache := insertStr s.downloadCache n.rootPath }
  let vcs := env.getVcsName n.installGopath
  if ctx.update && (ctx.gopath || ctx.localF) && !(vcs == "") then
    match env.updateByVcs n vcs with
    | some emsg => (none, [], downloadFail n emsg s0)
    | none =>
      let imports := env.getImports n.importPath n.rootPath n.installGopath
      (some n, if n.isGetDeps then imports else [], s0)
  else if n.isGetDepsOnly then
    let imports := env.getImports n.importPath n.rootPath n.installPath
    (some n, if n.isGetDeps then imports else [], s0)
  else
    let n1 :=
      if n.IsExist s0.fs then
        { n with revision := lnMustValue s0.localNodes n.rootPath }
      else n
    let s1 : RState := { s0 with fetchLog := s0.fetchLog ++ [n1] }
    match env.download n1 with
    | DownloadResult.err emsg => (none, [], downloadFail n1 emsg s1)
    | DownloadResult.ok rev imports =>
      let n2 := { n1 with revision := rev }
      let s2 : RState := { s1 with fs := insertStr s1.fs n2.installPath }
      (some n2, if n2.isGetDeps then imports else [], s2)

/-- `get.go` lines 171-184: the temporary child nodes built for one outer
iteration (loop variable `name`) of the raw-import loop: one node per inner
index `i` over `imports`, each constructed as `NewNode(name, BRANCH, "",
!download)` and version-overridden from the gopmfile entry for `imports[i]`
when a gopmfile is present and the entry is non-empty. -/
def childNodes (env : Env) (ctx : Ctx) (gfPath : Option String) (name : String)
    (imports : List String) : List Node :=
  imports.map (fun imp =>
    let child := NewNode env name VerType.branch "" (!ctx.download)
    match gfPath with
    | none => child
    | some gp =>
      let v := env.gopmfileDeps gp imp
      if v == "" then child
      else
        let p := validPkgInfo v
        { child with tp := p.1, value := p.2 })

/-- `get.go` lines 160-186: the outer loop over the raw import names — per
name, check for a gopmfile at the node's install location (logging when
found), build the temporary child-node batch and recurse over it. -/
def recurseImports (env : Env) (ctx : Ctx)
    (recurse : List Node → RState → RState) (n : Node)
    (imports : List String) (s : RState) : RState :=
  imports.foldl
    (fun sAcc name =>
      let gfPath := n.installPath ++ "/.gopmfile"
      if env.isFile gfPath then
        recurse (childNodes env ctx (some gfPath) name imports)
          { sAcc with logs := sAcc.logs ++ ["Found gopmfile: " ++ n.VerString] }
      else
        recurse (childNodes env ctx none name imports) sAcc)
    s

/-- `get.go` lines 193-206: post-processing after a non-null downloader
result — success log, bump `downloadCount`, persist the revision to the
local record when the node is unpinned with a non-empty revision, and copy
to the workspace when requested and no VCS metadata is present. -/
def saveAfterSuccess (env : Env) (ctx : Ctx) (n nod : Node) (s : RState) :
    RState :=
  let s4 : RState :=
    { s with
      logs := s.logs ++ ["SUCC GET " ++ n.VerString]
      downloadCount := s.downloadCount + 1 }
  let s5 : RState :=
    if nod.IsEmptyVal && !(nod.revision == "") then
      { s4 with localNodes := lnSetValue s4.localNodes nod.rootPath nod.revision }
    else s4
  if (ctx.gopath || ctx.localF) && !(nod.HasVcs env) then
    { s5 with fs := insertStr s5.fs nod.installGopath }
  else s5

/-- `get.go` line 129-131: mark getDepsOnly when the version is fixed and
the install already exists. -/
def fixNode (n : Node) (s : RState) : Node :=
  if n.IsFixed && n.IsExist s.fs then { n with isGetDepsOnly := true } else n

/-- `get.go` lines 116-121: invalid import path — log and count a failure,
walk continues. -/
def skipInvalid (n : Node) (s : RState) : RState :=
  { s with
    logs := s.logs ++ ["Skipped invalid package: " ++ n.VerString]
    failConut := s.failConut + 1 }

/-- `get.go` lines 133-139: rootPath already in the visited cache — emit a
single skip notice per rootPath via `skipCache`. -/
def skipDownloaded (n : Node) (s : RState) : RState :=
  if s.skipCache.contains n.rootPath then s
  else
    { s with
      skipCache := insertStr s.skipCache n.rootPath
      logs := s.logs ++ ["Skipped downloaded package: " ++ n.VerString] }

/-- `get.go` lines 143-153: not-update mode and the install already exists —
notify once, and copy to the workspace when an install-to-workspace mode is
requested. -/
def skipInstalled (ctx : Ctx) (n : Node) (s : RState) : RState :=
  let s1 : RState :=
    if s.skipCache.contains n.rootPath then s
    else
      { s with
        skipCache := insertStr s.skipCache n.rootPath
        logs := s.logs ++ ["Skipped installed package: " ++ n.VerString] }
  if ctx.gopath || ctx.localF then
    { s1 with fs := insertStr s1.fs n.installGopath }
  else s1

/-- `get.go` line 155: in not-update mode, record the empty-revision
placeholder for the rootPath before attempting the download. -/
def placeholderRecord (ctx : Ctx) (n : Node) (s : RState) : RState :=
  if !ctx.update then
    { s with localNodes := lnSetValue s.localNodes n.rootPath "" }
  else s

/-- `get.go` lines 112-207: the body of `downloadPackages`'s loop for one
candidate node, parameterized by the recursive walk `recurse` used for the
children.  Order of checks follows the source: pseudo-package "C", remote
path validity, target-subpackage skip, fixed-and-existing flag, visited
cache, not-update/exists skip (with workspace copy), empty-revision record
placeholder, the actual download, child recursion, success bookkeeping. -/
def downloadNode (env : Env) (ctx : Ctx) (target : String)
    (recurse : List Node → RState → RState) (n : Node) (s : RState) : RState :=
  if n.importPath = "C" then s
  else if env.isValidRemotePath n.importPath = false then skipInvalid n s
  else if isSubpackage n.rootPath target then s
  else
    let n := fixNode n s
    if s.downloadCache.contains n.rootPath then skipDownloaded n s
    else if !ctx.update && n.IsExist s.fs then skipInstalled ctx n s
    else
      let s1 := placeholderRecord ctx n s
      let r := downloadPackage env ctx n s1
      let s3 := recurseImports env ctx recurse n r.2.1 r.2.2
      match r.1 with
      | none => s3
      | some nd => saveAfterSuccess env ctx n nd s3

/-- `get.go` lines 111-208: `downloadPackages(target, ctx, nodes)` — the
recursive resolver walk, with a fuel bound on recursion depth standing in
for Go's unbounded call stack (any fuel larger than the dependency depth
gives the program's behavior). -/
def downloadPackages (env : Env) (ctx : Ctx) (target : String) (fuel : Nat) :
    List Node → RState → RState :=
  Nat.rec (motive := fun _ => List Node → RState → RState)
    (fun _ s => s)
    (fun _ ih nodes s =>
      nodes.foldl (fun s n => downloadNode env ctx target ih n s) s)
    fuel

theorem downloadPackages_zero (env : Env) (ctx : Ctx) (target : String)
    (nodes : List Node) (s : RState) :
    downloadPackages env ctx target 0 nodes s = s := rfl

theorem downloadPackages_succ (env : Env) (ctx : Ctx) (target : String)
    (fuel : Nat) (nodes : List Node) (s : RState) :
    downloadPackages env ctx target (fuel + 1) nodes s
      = nodes.foldl
          (fun s n =>
            downloadNode env ctx target (downloadPackages env ctx target fuel) n s)
          s := rfl

theorem downloadPackages_nil (env : Env) (ctx : Ctx) (target : String)
    (fuel : Nat) (s : RState) :
    downloadPackages env ctx target (fuel + 1) [] s = s := rfl

theorem downloadPackages_cons (env : Env) (ctx : Ctx) (target : String)
    (fuel : Nat) (n : Node) (rest : List Node) (s : RState) :
    downloadPackages env ctx target (fuel + 1) (n :: rest) s
      = downloadPackages env ctx target (fuel + 1) rest
          (downloadNode env ctx target (downloadPackages env ctx target fuel) n s) :=
  rfl

/-- `get.go` lines 210-218: `getPackages` — run the walk, save the local
record, log the summary, and decide the exit code (2 under strict mode with
failures, 0 otherwise).  Returns (final state, exit code). -/
def getPackages (env : Env) (ctx : Ctx) (fuel : Nat) (target : String)
    (nodes : List Node) (s : RState) : RState × Nat :=
  let s1 := downloadPackages env ctx target fuel nodes s
  let s2 : RState :=
    { s1 with
      savedNodes := s1.localNodes
      logs := s1.logs ++
        [toString s1.downloadCount ++ " package(s) downloaded, "
          ++ toString s1.failConut ++ " failed"] }
  if ctx.strict && decide (0 < s2.failConut) then (s2, 2) else (s2, 0)

/-! ### Basic lemmas about the session primitives -/

theorem containsIffMem (l : List String) (x : String) :
    l.contains x = true ↔ x ∈ l :=
  List.elem_iff

theorem insertStr_contains_self (l : List String) (x : String) :
    (insertStr l x).contains x = true := by
  rw [containsIffMem]
  unfold insertStr
  split
  · exact (containsIffMem l x).mp (by assumption)
  · exact List.mem_append_right l (List.mem_singleton_self x)

theorem insertStr_contains_mono (l : List String) (x y : String)
    (h : l.contains y = true) : (insertStr l x).contains y = true := by
  rw [containsIffMem] at h ⊢
  unfold insertStr
  split
  · exact h
  · exact List.mem_append_left _ h

theorem not_mem_filterNe (l : List String) (x : String) :
    x ∉ l.filter (fun p => !(p == x)) := by
  simp [List.mem_filter]

theorem foldlPres {α β : Type _} (f : β → α → β) (Q : β → Prop)
    (h : ∀ s a, Q s → Q (f s a)) :
    ∀ (l : List α) (s : β), Q s → Q (l.foldl f s)
  | [], _, hs => hs
  | a :: l, s, hs => foldlPres f Q h l (f s a) (h s a hs)

theorem foldlStable {α β γ : Type _} (f : β → α → β) (C : β → Prop) (g : β → γ)
    (h : ∀ s a, C s → C (f s a) ∧ g (f s a) = g s) :
    ∀ (l : List α) (s : β), C s → C (l.foldl f s) ∧ g (l.foldl f s) = g s
  | [], _, hs => ⟨hs, rfl⟩
  | a :: l, s, hs => by
    have h1 := h s a hs
    have h2 := foldlStable f C g h l (f s a) h1.1
    exact ⟨h2.1, h2.2.trans h1.2⟩

/-! ### Effect lemmas: which state fields each program piece touches -/

theorem downloadPackage_downloadCache (env : Env) (ctx : Ctx) (n : Node)
    (s : RState) :
    (downloadPackage env ctx n s).2.2.downloadCache
      = insertStr s.downloadCache n.rootPath := by
  unfold downloadPackage
  dsimp only
  repeat' split
  all_goals rfl

theorem downloadPackage_dpLog (env : Env) (ctx : Ctx) (n : Node) (s : RState) :
    (downloadPackage env ctx n s).2.2.dpLog = s.dpLog ++ [n] := by
  unfold downloadPackage
  dsimp only
  repeat' split
  all_goals rfl

theorem downloadPackage_skipCache (env : Env) (ctx : Ctx) (n : Node)
    (s : RState) :
    (downloadPackage env ctx n s).2.2.skipCache = s.skipCache := by
  unfold downloadPackage
  dsimp only
  repeat' split
  all_goals rfl

theorem downloadPackage_downloadCount (env : Env) (ctx : Ctx) (n : Node)
    (s : RState) :
    (downloadPackage env ctx n s).2.2.downloadCount = s.downloadCount := by
  unfold downloadPackage
  dsimp only
  repeat' split
  all_goals rfl

theorem downloadPackage_localNodes (env : Env) (ctx : Ctx) (n : Node)
    (s : RState) :
    (downloadPackage env ctx n s).2.2.localNodes = s.localNodes := by
  unfold downloadPackage
  dsimp only
  repeat' split
  all_goals rfl

theorem skipInvalid_downloadCache (n : Node) (s : RState) :
    (skipInvalid n s).downloadCache = s.downloadCache := rfl

theorem skipInvalid_dpLog (n : Node) (s : RState) :
    (skipInvalid n s).dpLog = s.dpLog := rfl

theorem skipDownloaded_downloadCache (n : Node) (s : RState) :
    (skipDownloaded n s).downloadCache = s.downloadCache := by
  unfold skipDownloaded
  split <;> rfl

theorem skipDownloaded_dpLog (n : Node) (s : RState) :
    (skipDownloaded n s).dpLog = s.dpLog := by
  unfold skipDownloaded
  split <;> rfl

theorem skipInstalled_downloadCache (ctx : Ctx) (n : Node) (s : RState) :
    (skipInstalled ctx n s).downloadCache = s.downloadCache := by
  unfold skipInstalled
  dsimp only
  repeat' split
  all_goals rfl

theorem skipInstalled_dpLog (ctx : Ctx) (n : Node) (s : RState) :
    (skipInstalled ctx n s).dpLog = s.dpLog := by
  unfold skipInstalled
  dsimp only
  repeat' split
  all_goals rfl

theorem placeholderRecord_downloadCache (ctx : Ctx) (n : Node) (s : RState) :
    (placeholderRecord ctx n s).downloadCache = s.downloadCache := by
  unfold placeholderRecord
  split <;> rfl

theorem placeholderRecord_dpLog (ctx : Ctx) (n : Node) (s : RState) :
    (placeholderRecord ctx n s).dpLog = s.dpLog := by
  unfold placeholderRecord
  split <;> rfl

theorem saveAfterSuccess_downloadCache (env : Env) (ctx : Ctx) (n nod : Node)
    (s : RState) :
    (saveAfterSuccess env ctx n nod s).downloadCache = s.downloadCache := by
  unfold saveAfterSuccess
  dsimp only
  repeat' split
  all_goals rfl

theorem saveAfterSuccess_dpLog (env : Env) (ctx : Ctx) (n nod : Node)
    (s : RState) :
    (saveAfterSuccess env ctx n nod s).dpLog = s.dpLog := by
  unfold saveAfterSuccess
  dsimp only
  repeat' split
  all_goals rfl

theorem fixNode_rootPath (n : Node) (s : RState) :
    (fixNode n s).rootPath = n.rootPath := by
  unfold fixNode
  split <;> rfl

/-! ### The at-most-once invariant (claim C1) -/

/-- Walk invariant: the ghost log of `downloadPackage` invocations has
pairwise-distinct rootPaths, and every rootPath it mentions is already in
the visited cache `downloadCache`. -/
def DPInv (s : RState) : Prop :=
  s.dpLog.Pairwise (fun a b => a.rootPath ≠ b.rootPath) ∧
  ∀ m ∈ s.dpLog, s.downloadCache.contains m.rootPath = true

theorem DPInv_congr {s s' : RState} (hc : s'.downloadCache = s.downloadCache)
    (hd : s'.dpLog = s.dpLog) (h : DPInv s) : DPInv s' := by
  unfold DPInv at h ⊢
  rw [hc, hd]
  exact h

theorem downloadPackage_DPInv (env : Env) (ctx : Ctx) (n : Node) (s : RState)
    (hn : s.downloadCache.contains n.rootPath = false) (h : DPInv s) :
    DPInv (downloadPackage env ctx n s).2.2 := by
  constructor
  · rw [downloadPackage_dpLog, List.pairwise_append]
    refine ⟨h.1, List.pairwise_singleton _ _, ?_⟩
    intro a ha b hb hab
    rw [List.mem_singleton] at hb
    subst hb
    have hca := h.2 a ha
    rw [hab, hn] at hca
    exact Bool.noConfusion hca
  · intro m hm
    rw [downloadPackage_downloadCache]
    rw [downloadPackage_dpLog] at hm
    rcases List.mem_append.mp hm with hm | hm
    · exact insertStr_contains_mono _ _ _ (h.2 m hm)
    · rw [List.mem_singleton] at hm
      subst hm
      exact insertStr_contains_self _ _

theorem recurseImports_DPInv (env : Env) (ctx : Ctx)
    (recurse : List Node → RState → RState)
    (hrec : ∀ ns s, DPInv s → DPInv (recurse ns s)) (n : Node)
    (imports : List String) (s : RState) (h : DPInv s) :
    DPInv (recurseImports env ctx recurse n imports s) := by
  unfold recurseImports
  refine foldlPres _ DPInv ?_ imports s h
  intro s' name hs'
  dsimp only
  split
  · exact hrec _ _ (DPInv_congr rfl rfl hs')
  · exact hrec _ _ hs'

theorem downloadNode_DPInv (env : Env) (ctx : Ctx) (target : String)
    (recurse : List Node → RState → RState)
    (hrec : ∀ ns s, DPInv s → DPInv (recurse ns s)) (n : Node) (s : RState)
    (h : DPInv s) : DPInv (downloadNode env ctx target recurse n s) := by
  unfold downloadNode
  dsimp only
  split
  · exact h
  split
  · exact DPInv_congr (skipInvalid_downloadCache n s) (skipInvalid_dpLog n s) h
  split
  · exact h
  split
  · exact DPInv_congr (skipDownloaded_downloadCache _ s) (skipDownloaded_dpLog _ s) h
  split
  · exact DPInv_congr (skipInstalled_downloadCache ctx _ s) (skipInstalled_dpLog ctx _ s) h
  · have hguard : s.downloadCache.contains (fixNode n s).rootPath = false := by
      rename_i hcache hupdate
      exact Bool.eq_false_iff.mpr hcache
    have h1 : DPInv (placeholderRecord ctx (fixNode n s) s) :=
      DPInv_congr (placeholderRecord_downloadCache ctx _ s)
        (placeholderRecord_dpLog ctx _ s) h
    have hg1 : (placeholderRecord ctx (fixNode n s) s).downloadCache.contains
        (fixNode n s).rootPath = false := by
      rw [placeholderRecord_downloadCache]
      exact hguard
    have h2 : DPInv (downloadPackage env ctx (fixNode n s)
        (placeholderRecord ctx (fixNode n s) s)).2.2 :=
      downloadPackage_DPInv env ctx _ _ hg1 h1
    have h3 : DPInv (recurseImports env ctx recurse (fixNode n s)
        (downloadPackage env ctx (fixNode n s)
          (placeholderRecord ctx (fixNode n s) s)).2.1
        (downloadPackage env ctx (fixNode n s)
          (placeholderRecord ctx (fixNode n s) s)).2.2) :=
      recurseImports_DPInv env ctx recurse hrec _ _ _ h2
    split
    · exact h3
    · exact DPInv_congr (saveAfterSuccess_downloadCache env ctx _ _ _)
        (saveAfterSuccess_dpLog env ctx _ _ _) h3

theorem downloadPackages_DPInv (env : Env) (ctx : Ctx) (target : String) :
    ∀ (fuel : Nat) (nodes : List Node) (s : RState),
      DPInv s → DPInv (downloadPackages env ctx target fuel nodes s)
  | 0, _, _, h => h
  | fuel + 1, nodes, s, h => by
    rw [downloadPackages_succ]
    exact foldlPres _ DPInv
      (fun s' n hs' =>
        downloadNode_DPInv env ctx target _
          (downloadPackages_DPInv env ctx target fuel) n s' hs')
      nodes s h

theorem pairwise_filter_len (R : String) :
    ∀ l : List Node,
      l.Pairwise (fun a b => a.rootPath ≠ b.rootPath) →
      (l.filter (fun m => m.rootPath == R)).length ≤ 1
  | [], _ => by simp
  | a :: l, h => by
    rcases List.pairwise_cons.mp h with ⟨ha, hl⟩
    by_cases hR : a.rootPath = R
    · have hnil : l.filter (fun m => m.rootPath == R) = [] := by
        rw [List.filter_eq_nil_iff]
        intro m hm
        simp only [beq_iff_eq]
        intro hc
        exact ha m hm (by rw [hR, hc])
      rw [List.filter_cons_of_pos (by simp [hR]), hnil]
      simp
    · rw [List.filter_cons_of_neg (by simp [hR])]
      exact pairwise_filter_len R l hl

/-! ### Concrete environments for the closed witness and counterexample runs -/

/-- Permissive base environment: every path valid, identity root-path
deriver, no VCS, no gopmfile, fetches succeed with revision "rev1" and an
empty raw-import list. -/
def envB : Env :=
  { isValidRemotePath := fun _ => true
    getRootPath := fun p => p
    installPathOf := fun r _ => "repo/" ++ r
    installGopathOf := fun r => "gopath/" ++ r
    getVcsName := fun _ => ""
    getImports := fun _ _ _ => []
    download := fun _ => DownloadResult.ok "rev1" []
    updateByVcs := fun _ _ => none
    isFile := fun _ => false
    gopmfileDeps := fun _ _ => "" }

/-- Default flags: no update, no workspace copy, recurse dependencies. -/
def ctxB : Ctx :=
  { update := false, gopath := false, localF := false,
    download := false, remote := false, strict := false }

/-- C1: for every rootPath R discovered during one run of the resolver walk
(`downloadPackages`), the downloader (`downloadPackage`) is invoked on a
node with rootPath R at most once, regardless of how many distinct import
chains reach R in that run.  The ghost log `dpLog` records exactly the
nodes `downloadPackage` was invoked on. -/
theorem C1_downloader_at_most_once (env : Env) (ctx : Ctx) (target : String)
    (fuel : Nat) (nodes : List Node) (s0 : RState) (h : s0.dpLog = [])
    (R : String) :
    ((downloadPackages env ctx target fuel nodes s0).dpLog.filter
      (fun m => m.rootPath == R)).length <= 1 := by
  have h0 : DPInv s0 := by
    constructor
    · rw [h]
      exact List.Pairwise.nil
    · intro m hm
      rw [h] at hm
      exact absurd hm (List.not_mem_nil m)
  exact pairwise_filter_len R _
    (downloadPackages_DPInv env ctx target fuel nodes s0 h0).1

/-- Witness for C1: a concrete run in which the same package is offered
twice at top level; it is downloaded at most once. -/
theorem C1_downloader_at_most_once_witness :
    ((downloadPackages envB ctxB "tgt" 3
        [NewNode envB "p" VerType.branch "" true,
         NewNode envB "p" VerType.branch "" true]
        initState).dpLog.filter (fun m => m.rootPath == "p")).length <= 1 :=
  C1_downloader_at_most_once envB ctxB "tgt" 3
    [NewNode envB "p" VerType.branch "" true,
     NewNode envB "p" VerType.branch "" true]
    initState rfl "p"

/-- Environment for the C2 exhibit: the root package fetches successfully
with raw imports ["a", "b"]; a gopmfile is present and pins dependency "b"
to tag v1; "a" and "b" themselves fetch with no further imports. -/
def envC2 : Env :=
  { envB with
    download := fun n =>
      if n.importPath == "root" then DownloadResult.ok "rev1" ["a", "b"]
      else DownloadResult.ok "rev2" []
    isFile := fun _ => true
    gopmfileDeps := fun _ k => if k == "b" then "tag:v1" else "" }

/-- C2 (code bug exhibit): with raw imports ["a", "b"] and a gopmfile entry
only for "b", the inner child-building loop (get.go lines 172-184) builds
TWO child nodes for the single outer name "a" — one per position of the
`imports` slice — and the second of them carries "b"'s manifest version
(tag v1) under import path "a"; walking the whole tree, the node actually
downloaded for "b" is the unpinned Branch one, so the manifest pin for "b"
is never applied.  The claimed behavior (exactly one child per name, its
version overridden from the entry for that same name) does not hold. -/
theorem C2_child_nodes_bug :
    ((childNodes envC2 ctxB (some "repo/root/.gopmfile") "a" ["a", "b"]).map
        (fun c => (c.importPath, c.tp, c.value)))
      = [("a", VerType.branch, ""), ("a", VerType.tag, "v1")] ∧
    ((downloadPackages envC2 ctxB "tgt" 3
        [NewNode envC2 "root" VerType.branch "" true] initState).dpLog.map
        (fun c => (c.importPath, c.tp, c.value)))
      = [("root", VerType.branch, ""), ("a", VerType.branch, ""),
         ("b", VerType.branch, "")] := by
  constructor <;> rfl

/-- Environment in which every fetch fails with cause "boom". -/
def envFail : Env :=
  { envB with download := fun _ => DownloadResult.err "boom" }

/-- Shared characterization of the failure path of `downloadPackage`. -/
theorem downloadPackage_failEffects (env : Env) (ctx : Ctx) (n : Node)
    (s : RState) (h : (downloadPackage env ctx n s).1 = none) :
    (downloadPackage env ctx n s).2.1 = [] ∧
    (downloadPackage env ctx n s).2.2.failConut = s.failConut + 1 ∧
    n.installPath ∉ (downloadPackage env ctx n s).2.2.fs ∧
    (downloadPackage env ctx n s).2.2.downloadCount = s.downloadCount ∧
    (downloadPackage env ctx n s).2.2.localNodes = s.localNodes ∧
    ∃ cause,
      (downloadPackage env ctx n s).2.2.logs
        = s.logs ++ ["Downloading package: " ++ n.VerString,
            "Fail to download pakage: " ++ n.importPath, "\t" ++ cause] := by
  revert h
  unfold downloadPackage
  dsimp only
  repeat' split
  all_goals intro h
  all_goals try exact Option.noConfusion h
  all_goals exact ⟨rfl, rfl, not_mem_filterNe _ _, rfl, rfl, _, List.append_assoc _ _ _⟩

/-- C3: when a node's fetch fails (`downloadPackage` returns a null
result), the downloader returns an empty raw-import list (so none of the
node's raw imports become child nodes), increments the failed counter by
exactly one, leaves no install directory for the node, does not touch the
succeeded counter, persists no revision to the local record, and logs the
node's import path followed by the cause. -/
theorem C3_failure_contained (env : Env) (ctx : Ctx) (n : Node) (s : RState)
    (h : (downloadPackage env ctx n s).1 = none) :
    (downloadPackage env ctx n s).2.1 = [] ∧
    (downloadPackage env ctx n s).2.2.failConut = s.failConut + 1 ∧
    n.installPath ∉ (downloadPackage env ctx n s).2.2.fs ∧
    (downloadPackage env ctx n s).2.2.downloadCount = s.downloadCount ∧
    (downloadPackage env ctx n s).2.2.localNodes = s.localNodes ∧
    ∃ cause,
      (downloadPackage env ctx n s).2.2.logs
        = s.logs ++ ["Downloading package: " ++ n.VerString,
            "Fail to download pakage: " ++ n.importPath, "\t" ++ cause] :=
  downloadPackage_failEffects env ctx n s h

/-- Witness for C3: a concrete failing fetch. -/
theorem C3_failure_contained_witness :
    (downloadPackage envFail ctxB (NewNode envFail "q" VerType.branch "" true)
        initState).2.1 = [] ∧
    (downloadPackage envFail ctxB (NewNode envFail "q" VerType.branch "" true)
        initState).2.2.failConut = initState.failConut + 1 := by
  have h := C3_failure_contained envFail ctxB
    (NewNode envFail "q" VerType.branch "" true) initState (by rfl)
  exact ⟨h.1, h.2.1⟩

/-- C4 counterexample: a candidate node whose importPath is the
pseudo-package marker "C" is neither logged nor counted as a failure — the
walk drops it silently, leaving the entire run state unchanged.  This
refutes the claim that the rejection of a "C" node is logged and increments
the failed counter. -/
theorem C4_pseudo_package_counterexample :
    (NewNode envB "C" VerType.branch "" true).importPath = "C" ∧
    downloadPackages envB ctxB "tgt" 1 [NewNode envB "C" VerType.branch "" true]
        initState = initState :=
  ⟨rfl, rfl⟩

/-- C4 (amended): a candidate node whose importPath is "C" is skipped
silently (state unchanged) and the walk continues with the remaining nodes;
a candidate node whose importPath fails remote-path validity is logged,
counted as exactly one failure, and the walk continues with the remaining
nodes. -/
theorem C4_invalid_rejection_amended (env : Env) (ctx : Ctx) (target : String)
    (fuel : Nat) (n : Node) (rest : List Node) (s : RState) :
    (n.importPath = "C" →
      downloadPackages env ctx target (fuel + 1) (n :: rest) s
        = downloadPackages env ctx target (fuel + 1) rest s) ∧
    (n.importPath ≠ "C" → env.isValidRemotePath n.importPath = false →
      downloadPackages env ctx target (fuel + 1) (n :: rest) s
        = downloadPackages env ctx target (fuel + 1) rest
            { s with
              logs := s.logs ++ ["Skipped invalid package: " ++ n.VerString]
              failConut := s.failConut + 1 }) := by
  constructor
  · intro hC
    rw [downloadPackages_cons]
    have hstep :
        downloadNode env ctx target (downloadPackages env ctx target fuel) n s
          = s := by
      unfold downloadNode
      rw [if_pos hC]
    rw [hstep]
  · intro hC hV
    rw [downloadPackages_cons]
    have hstep :
        downloadNode env ctx target (downloadPackages env ctx target fuel) n s
          = skipInvalid n s := by
      unfold downloadNode
      rw [if_neg hC, if_pos hV]
    rw [hstep]
    rfl

/-- Environment in which every import path is reported invalid. -/
def envInvalid : Env :=
  { envB with isValidRemotePath := fun _ => false }

/-- Witness for the amended C4: both branches at concrete inputs. -/
theorem C4_invalid_rejection_amended_witness :
    (downloadPackages envB ctxB "tgt" 1
        [NewNode envB "C" VerType.branch "" true] initState
      = downloadPackages envB ctxB "tgt" 1 [] initState) ∧
    (downloadPackages envInvalid ctxB "tgt" 1
        [NewNode envInvalid "x" VerType.branch "" true] initState
      = downloadPackages envInvalid ctxB "tgt" 1 []
          { initState with
            logs := initState.logs ++ ["Skipped invalid package: "
              ++ (NewNode envInvalid "x" VerType.branch "" true).VerString]
            failConut := initState.failConut + 1 }) := by
  constructor
  · exact (C4_invalid_rejection_amended envB ctxB "tgt" 0
      (NewNode envB "C" VerType.branch "" true) [] initState).1 rfl
  · exact (C4_invalid_rejection_amended envInvalid ctxB "tgt" 0
      (NewNode envInvalid "x" VerType.branch "" true) [] initState).2
      (by decide) rfl

/-- Environment where "x" is an invalid remote path whose derived rootPath
is the resolution target itself. -/
def envC8 : Env :=
  { envB with
    isValidRemotePath := fun p => !(p == "x")
    getRootPath := fun _ => "tgt" }

/-- C8 counterexample: a candidate node whose rootPath equals the target is
not always skipped silently: when its importPath additionally fails
remote-path validity, the validity check (which precedes the subpackage
check) fires, so the node is logged and counted as a failure. -/
theorem C8_subpackage_counterexample :
    isSubpackage (NewNode envC8 "x" VerType.branch "" true).rootPath "tgt"
      = true ∧
    (downloadPackages envC8 ctxB "tgt" 1
        [NewNode envC8 "x" VerType.branch "" true] initState).failConut = 1 ∧
    (downloadPackages envC8 ctxB "tgt" 1
        [NewNode envC8 "x" VerType.branch "" true] initState).logs ≠ [] := by
  refine ⟨rfl, rfl, ?_⟩
  decide

/-- C8 (amended): every candidate node that passes the import-path checks
(importPath not "C", valid remote path) and whose rootPath equals or is a
subpackage of the target is skipped silently wherever it is discovered: the
run state is completely unchanged (not fetched, neither counter changed, no
log output) and the walk continues with the remaining nodes. -/
theorem C8_target_subpackage_skip_amended (env : Env) (ctx : Ctx)
    (target : String) (fuel : Nat) (n : Node) (rest : List Node) (s : RState)
    (h1 : n.importPath ≠ "C")
    (h2 : env.isValidRemotePath n.importPath = true)
    (h3 : isSubpackage n.rootPath target = true) :
    downloadPackages env ctx target (fuel + 1) (n :: rest) s
      = downloadPackages env ctx target (fuel + 1) rest s := by
  rw [downloadPackages_cons]
  have hne : ¬(env.isValidRemotePath n.importPath = false) := by
    simp [h2]
  have hstep :
      downloadNode env ctx target (downloadPackages env ctx target fuel) n s
        = s := by
    unfold downloadNode
    rw [if_neg h1, if_neg hne, if_pos h3]
  rw [hstep]

/-- Environment mapping every import path to rootPath "tgt". -/
def envC8w : Env :=
  { envB with getRootPath := fun _ => "tgt" }

/-- Witness for the amended C8: a valid node rooted at the target is
dropped with no state change. -/
theorem C8_target_subpackage_skip_amended_witness :
    downloadPackages envC8w ctxB "tgt" 1
        [NewNode envC8w "tgt/sub" VerType.branch "" true] initState
      = downloadPackages envC8w ctxB "tgt" 1 [] initState :=
  C8_target_subpackage_skip_amended envC8w ctxB "tgt" 0
    (NewNode envC8w "tgt/sub" VerType.branch "" true) [] initState
    (by decide) rfl rfl

/-- Environment mapping every import path to rootPath "r". -/
def envC5 : Env :=
  { envB with getRootPath := fun _ => "r" }

/-- State whose local record already holds revision "abc" for rootPath
"r". -/
def stateC5 : RState :=
  { initState with localNodes := [("r", "abc")] }

/-- A fresh unpinned node rooted at "r". -/
def nodeC5 : Node := NewNode envC5 "p" VerType.branch "" true

/-- C5 counterexample: in the fresh-fetch case the downloader does not
always consult the Local Record: when the node's install location does not
exist on disk, the node handed to the external fetch strategy keeps its
empty revision even though the record holds prior revision "abc" for its
rootPath. -/
theorem C5_record_consult_counterexample :
    lnMustValue stateC5.localNodes nodeC5.rootPath = "abc" ∧
    nodeC5.isGetDepsOnly = false ∧
    ((downloadPackage envC5 ctxB nodeC5 stateC5).2.2.fetchLog.map
      Node.revision) = [""] :=
  ⟨rfl, rfl, rfl⟩

/-- C5 (amended): in the fresh-fetch case (no VCS update in progress, node
not getDepsOnly), when the node's install location already exists on disk,
the downloader consults the Local Record for a prior resolved revision of
the node's rootPath and pins the node to it before invoking the external
fetch strategy: the node appended to the fetch log carries exactly the
recorded revision. -/
theorem C5_record_consult_amended (env : Env) (ctx : Ctx) (n : Node)
    (s : RState)
    (hvcs : (ctx.update && (ctx.gopath || ctx.localF)
        && !(env.getVcsName n.installGopath == "")) = false)
    (hdeps : n.isGetDepsOnly = false)
    (hex : n.IsExist s.fs = true) :
    (downloadPackage env ctx n s).2.2.fetchLog
      = s.fetchLog
        ++ [{ n with revision := lnMustValue s.localNodes n.rootPath }] := by
  unfold downloadPackage
  dsimp only
  rw [if_neg (by simp [hvcs]), if_neg (by simp [hdeps]), if_pos hex]
  split <;> rfl

/-- State for the C5 witness: record pins "r" to "abc" and the install
location for "r" exists on disk. -/
def stateC5w : RState :=
  { initState with localNodes := [("r", "abc")], fs := ["repo/r"] }

/-- Witness for the amended C5. -/
theorem C5_record_consult_amended_witness :
    (downloadPackage envC5 ctxB nodeC5 stateC5w).2.2.fetchLog
      = stateC5w.fetchLog
        ++ [{ nodeC5 with
              revision := lnMustValue stateC5w.localNodes nodeC5.rootPath }] :=
  C5_record_consult_amended envC5 ctxB nodeC5 stateC5w rfl rfl rfl

/-- Flags with update mode on (and no workspace copy). -/
def ctxU : Ctx :=
  { ctxB with update := true }

/-- Environment whose fetches succeed with an EMPTY resolved revision. -/
def envC6 : Env :=
  { envB with download := fun _ => DownloadResult.ok "" [] }

/-- An unpinned node for the C6 counterexample. -/
def nodeC6 : Node := NewNode envC6 "p" VerType.branch "" true

/-- C6 counterexample: a successful fetch of an unpinned node whose
resolved revision comes back empty increments the succeeded counter but
writes nothing to the Local Record — the record write is additionally
guarded by the revision being non-empty, which the claim omits. -/
theorem C6_record_write_counterexample :
    nodeC6.IsEmptyVal = true ∧
    (downloadPackages envC6 ctxU "tgt" 1 [nodeC6] initState).downloadCount
      = 1 ∧
    (downloadPackages envC6 ctxU "tgt" 1 [nodeC6] initState).localNodes
      = [] :=
  ⟨rfl, rfl, rfl⟩

/-- C6 (amended): for every node whose fetch returns a non-null result and
which is unpinned (Branch kind with empty value), the succeeded counter is
incremented, and its resolved revision is written to the Local Record under
the node's rootPath provided that revision is non-empty.
(`saveAfterSuccess` is the post-processing `downloadNode` applies exactly
to non-null results.) -/
theorem C6_record_write_amended (env : Env) (ctx : Ctx) (n nod : Node)
    (s : RState) (h1 : nod.IsEmptyVal = true) :
    (saveAfterSuccess env ctx n nod s).downloadCount = s.downloadCount + 1 ∧
    (nod.revision ≠ "" →
      (saveAfterSuccess env ctx n nod s).localNodes
        = lnSetValue s.localNodes nod.rootPath nod.revision) := by
  constructor
  · unfold saveAfterSuccess
    dsimp only
    repeat' split
    all_goals rfl
  · intro h2
    have hcond : (nod.IsEmptyVal && !(nod.revision == "")) = true := by
      rw [h1]
      simp [h2]
    unfold saveAfterSuccess
    dsimp only
    rw [if_pos hcond]
    split <;> rfl

/-- An unpinned node with a non-empty resolved revision. -/
def nodeC6w : Node :=
  { nodeC6 with revision := "abc" }

/-- Witness for the amended C6. -/
theorem C6_record_write_amended_witness :
    (saveAfterSuccess envB ctxB nodeC6w nodeC6w initState).downloadCount
      = initState.downloadCount + 1 ∧
    (saveAfterSuccess envB ctxB nodeC6w nodeC6w initState).localNodes
      = lnSetValue initState.localNodes nodeC6w.rootPath nodeC6w.revision := by
  have h := C6_record_write_amended envB ctxB nodeC6w nodeC6w initState rfl
  exact ⟨h.1, h.2 (by decide)⟩

/-- C7: the process exit decision of `getPackages` — exit code 2 exactly
when strict mode is set and the failed counter is positive at end of run;
in every other case the exit code is 0. -/
theorem C7_exit_policy (env : Env) (ctx : Ctx) (fuel : Nat) (target : String)
    (nodes : List Node) (s : RState) :
    ((getPackages env ctx fuel target nodes s).2 = 2 ↔
      (ctx.strict = true ∧
        0 < (getPackages env ctx fuel target nodes s).1.failConut)) ∧
    ((getPackages env ctx fuel target nodes s).2 = 2 ∨
      (getPackages env ctx fuel target nodes s).2 = 0) := by
  unfold getPackages
  dsimp only
  split
  · rename_i hc
    rw [Bool.and_eq_true] at hc
    exact ⟨⟨fun _ => ⟨hc.1, of_decide_eq_true hc.2⟩, fun _ => rfl⟩, Or.inl rfl⟩
  · rename_i hc
    refine ⟨⟨fun h0 => by simp at h0, fun hand => ?_⟩, Or.inr rfl⟩
    exact absurd (by rw [hand.1]; simp [hand.2]) hc

/-! ### Cached rootPaths are never re-fetched (claim C9) -/

theorem downloadPackage_keeps (env : Env) (ctx : Ctx) (R : String) (n : Node)
    (s : RState) (hne : n.rootPath ≠ R)
    (h : s.downloadCache.contains R = true) :
    (downloadPackage env ctx n s).2.2.downloadCache.contains R = true ∧
    (downloadPackage env ctx n s).2.2.dpLog.filter (fun m => m.rootPath == R)
      = s.dpLog.filter (fun m => m.rootPath == R) := by
  constructor
  · rw [downloadPackage_downloadCache]
    exact insertStr_contains_mono _ _ _ h
  · rw [downloadPackage_dpLog, List.filter_append]
    have hsingle : [n].filter (fun m => m.rootPath == R) = [] := by
      simp [hne]
    rw [hsingle, List.append_nil]

theorem recurseImports_keeps (env : Env) (ctx : Ctx)
    (recurse : List Node → RState → RState) (R : String)
    (hrec : ∀ ns s, s.downloadCache.contains R = true →
      (recurse ns s).downloadCache.contains R = true ∧
      (recurse ns s).dpLog.filter (fun m => m.rootPath == R)
        = s.dpLog.filter (fun m => m.rootPath == R))
    (n : Node) (imports : List String) (s : RState)
    (h : s.downloadCache.contains R = true) :
    (recurseImports env ctx recurse n imports s).downloadCache.contains R
        = true ∧
    (recurseImports env ctx recurse n imports s).dpLog.filter
        (fun m => m.rootPath == R)
      = s.dpLog.filter (fun m => m.rootPath == R) := by
  unfold recurseImports
  refine foldlStable _ (fun sx => sx.downloadCache.contains R = true)
    (fun sx => sx.dpLog.filter (fun m => m.rootPath == R)) ?_ imports s h
  intro sx name hsx
  dsimp only
  split
  · exact hrec _ _ hsx
  · exact hrec _ _ hsx

theorem downloadNode_keeps (env : Env) (ctx : Ctx) (target : String)
    (recurse : List Node → RState → RState) (R : String)
    (hrec : ∀ ns s, s.downloadCache.contains R = true →
      (recurse ns s).downloadCache.contains R = true ∧
      (recurse ns s).dpLog.filter (fun m => m.rootPath == R)
        = s.dpLog.filter (fun m => m.rootPath == R))
    (n : Node) (s : RState) (h : s.downloadCache.contains R = true) :
    (downloadNode env ctx target recurse n s).downloadCache.contains R
        = true ∧
    (downloadNode env ctx target recurse n s).dpLog.filter
        (fun m => m.rootPath == R)
      = s.dpLog.filter (fun m => m.rootPath == R) := by
  unfold downloadNode
  dsimp only
  split
  · exact ⟨h, rfl⟩
  split
  · exact ⟨h, rfl⟩
  split
  · exact ⟨h, rfl⟩
  split
  · exact ⟨skipDownloaded_downloadCache _ s ▸ h, by rw [skipDownloaded_dpLog]⟩
  split
  · exact ⟨skipInstalled_downloadCache ctx _ s ▸ h, by rw [skipInstalled_dpLog]⟩
  · rename_i hcache hupdate
    have hne : (fixNode n s).rootPath ≠ R := by
      intro hEq
      rw [hEq] at hcache
      exact hcache h
    have hp : (placeholderRecord ctx (fixNode n s) s).downloadCache.contains R
        = true := by
      rw [placeholderRecord_downloadCache]
      exact h
    have hdp := downloadPackage_keeps env ctx R (fixNode n s)
      (placeholderRecord ctx (fixNode n s) s) hne hp
    have hdpf : (downloadPackage env ctx (fixNode n s)
        (placeholderRecord ctx (fixNode n s) s)).2.2.dpLog.filter
          (fun m => m.rootPath == R)
        = s.dpLog.filter (fun m => m.rootPath == R) := by
      rw [hdp.2, placeholderRecord_dpLog]
    have hri := recurseImports_keeps env ctx recurse R hrec (fixNode n s)
      (downloadPackage env ctx (fixNode n s)
        (placeholderRecord ctx (fixNode n s) s)).2.1
      (downloadPackage env ctx (fixNode n s)
        (placeholderRecord ctx (fixNode n s) s)).2.2 hdp.1
    split
    · exact ⟨hri.1, hri.2.trans hdpf⟩
    · constructor
      · rw [saveAfterSuccess_downloadCache]
        exact hri.1
      · rw [saveAfterSuccess_dpLog]
        exact hri.2.trans hdpf

theorem downloadPackages_keeps (env : Env) (ctx : Ctx) (target : String)
    (R : String) :
    ∀ (fuel : Nat) (nodes : List Node) (s : RState),
      s.downloadCache.contains R = true →
      (downloadPackages env ctx target fuel nodes s).downloadCache.contains R
          = true ∧
      (downloadPackages env ctx target fuel nodes s).dpLog.filter
          (fun m => m.rootPath == R)
        = s.dpLog.filter (fun m => m.rootPath == R)
  | 0, _, _, h => ⟨h, rfl⟩
  | fuel + 1, nodes, s, h => by
    rw [downloadPackages_succ]
    exact foldlStable _ (fun sx => sx.downloadCache.contains R = true)
      (fun sx => sx.dpLog.filter (fun m => m.rootPath == R))
      (fun sx nx hsx =>
        downloadNode_keeps env ctx target _ R
          (downloadPackages_keeps env ctx target R fuel) nx sx hsx)
      nodes s h

/-- C9: when `downloadPackage` fails on node n, n's rootPath is nevertheless
in the visited cache (inserted at the start of `downloadPackage`, before
the fetch outcome is known), the failure is counted exactly once and no
install directory remains; and from any state whose cache already holds
that rootPath, any further walk performs no `downloadPackage` invocation
for it (its `dpLog` entries for that rootPath do not grow), so a failed
rootPath is never retried within a run. -/
theorem C9_failed_rootPath_cached (env : Env) (ctx : Ctx) (target : String)
    (fuel : Nat) (nodes : List Node) (n : Node) (s : RState)
    (hfail : (downloadPackage env ctx n s).1 = none) :
    (downloadPackage env ctx n s).2.2.downloadCache.contains n.rootPath
        = true ∧
    (downloadPackage env ctx n s).2.2.failConut = s.failConut + 1 ∧
    n.installPath ∉ (downloadPackage env ctx n s).2.2.fs ∧
    ∀ sx : RState, sx.downloadCache.contains n.rootPath = true →
      (downloadPackages env ctx target fuel nodes sx).dpLog.filter
          (fun m => m.rootPath == n.rootPath)
        = sx.dpLog.filter (fun m => m.rootPath == n.rootPath) := by
  have he := downloadPackage_failEffects env ctx n s hfail
  refine ⟨?_, he.2.1, he.2.2.1, ?_⟩
  · rw [downloadPackage_downloadCache]
    exact insertStr_contains_self _ _
  · intro sx hsx
    exact (downloadPackages_keeps env ctx target n.rootPath fuel nodes sx
      hsx).2

/-- A node whose fetch fails, for the C9 and C10 witnesses. -/
def nodeC9 : Node := NewNode envFail "q" VerType.branch "" true

/-- State whose visited cache already holds rootPath "q". -/
def stateC9 : RState :=
  { initState with downloadCache := ["q"] }

/-- Witness for C9 at concrete inputs. -/
theorem C9_failed_rootPath_cached_witness :
    (downloadPackage envFail ctxB nodeC9 initState).2.2.downloadCache.contains
        nodeC9.rootPath = true ∧
    (downloadPackage envFail ctxB nodeC9 initState).2.2.failConut
      = initState.failConut + 1 ∧
    (downloadPackages envFail ctxB "tgt" 1 [nodeC9] stateC9).dpLog.filter
        (fun m => m.rootPath == nodeC9.rootPath)
      = stateC9.dpLog.filter (fun m => m.rootPath == nodeC9.rootPath) := by
  have h := C9_failed_rootPath_cached envFail ctxB "tgt" 1 [nodeC9] nodeC9
    initState (by rfl)
  exact ⟨h.1, h.2.1, h.2.2.2 stateC9 (by rfl)⟩

theorem lnMustValue_lnSetValue (ln : List (String × String)) (k v : String) :
    lnMustValue (lnSetValue ln k v) k = v := by
  unfold lnMustValue lnSetValue
  rw [List.find?_cons_of_pos _ (by simp)]

theorem recurseImports_nil (env : Env) (ctx : Ctx)
    (recurse : List Node → RState → RState) (n : Node) (s : RState) :
    recurseImports env ctx recurse n [] s = s := rfl

/-- C10: with update mode off, a candidate node (passing the earlier
checks) whose install location does not exist has an empty-revision entry
for its rootPath written to the Local Record before its download is
attempted (the state handed to `downloadPackage` already holds it, and the
entry reads back as ""); if the download then fails, the entry is not
rolled back — the walk step leaves the record exactly with that placeholder
entry — and the end-of-run save of `getPackages` snapshots the walk's final
record, so the persisted record changes even for nodes never successfully
fetched. -/
theorem C10_placeholder_persisted (env : Env) (ctx : Ctx) (target : String)
    (recurse : List Node → RState → RState) (n : Node) (s : RState)
    (h1 : n.importPath ≠ "C")
    (h2 : env.isValidRemotePath n.importPath = true)
    (h3 : isSubpackage n.rootPath target = false)
    (h4 : s.downloadCache.contains n.rootPath = false)
    (h5 : ctx.update = false)
    (h6 : n.IsExist s.fs = false)
    (hfail : (downloadPackage env ctx n
        { s with localNodes := lnSetValue s.localNodes n.rootPath "" }).1
      = none) :
    lnMustValue (lnSetValue s.localNodes n.rootPath "") n.rootPath = "" ∧
    (downloadNode env ctx target recurse n s).localNodes
      = lnSetValue s.localNodes n.rootPath "" ∧
    ∀ (fuel : Nat) (nodes : List Node) (s0 : RState),
      (getPackages env ctx fuel target nodes s0).1.savedNodes
        = (downloadPackages env ctx target fuel nodes s0).localNodes := by
  refine ⟨lnMustValue_lnSetValue _ _ _, ?_, ?_⟩
  · have hfix : fixNode n s = n := by
      unfold fixNode
      rw [if_neg (by simp [h6])]
    have hph : placeholderRecord ctx n s
        = { s with localNodes := lnSetValue s.localNodes n.rootPath "" } := by
      unfold placeholderRecord
      rw [if_pos (by simp [h5])]
    unfold downloadNode
    dsimp only
    rw [if_neg h1, if_neg (by simp [h2]), if_neg (by simp [h3]), hfix,
      if_neg (by simp only [h4]; exact Bool.false_ne_true),
      if_neg (by simp only [h5, h6]; decide), hph, hfail]
    have he := downloadPackage_failEffects env ctx n
      { s with localNodes := lnSetValue s.localNodes n.rootPath "" } hfail
    dsimp only
    rw [he.1, recurseImports_nil, downloadPackage_localNodes]
  · intro fuel nodes s0
    unfold getPackages
    dsimp only
    split <;> rfl

/-- Witness for C10: a concrete failed fresh download in non-update mode
leaves the placeholder entry in the record. -/
theorem C10_placeholder_persisted_witness :
    (downloadNode envFail ctxB "tgt" (downloadPackages envFail ctxB "tgt" 0)
        nodeC9 initState).localNodes
      = lnSetValue initState.localNodes nodeC9.rootPath "" := by
  have h := C10_placeholder_persisted envFail ctxB "tgt"
    (downloadPackages envFail ctxB "tgt" 0) nodeC9 initState
    (by decide) rfl rfl rfl rfl rfl (by rfl)
  exact h.2.1

end Gopm
